import Mathlib

/-!
Formal model of the vet-scribe-ai client (frontend/components/AudioRecorder.tsx,
frontend/components/TranscriptionResult.tsx, frontend/pages: Home) and of the
spec's backend task state machine (the backend source is not part of the
repository snapshot; see the doc comments marked "Modelled from the spec").

The client code is shallowly embedded: the JSON payloads the components read
are modelled as a small JSON value type with key lookup; the polling loop of
AudioRecorder.pollProgress is modelled as a function consuming a list of poll
outcomes (each either a response or a thrown error) and returning the final
component state together with the list of HTTP requests issued.
-/

namespace VetScribe

/-! ## JSON values, for the field-name level reads of the components -/

/-- A JSON value, as consumed by the untyped (result: any / progress: any)
React components. -/
inductive JVal where
  | null : JVal
  | str (s : String) : JVal
  | num (n : Int) : JVal
  | bool (b : Bool) : JVal
  | arr (elems : List JVal) : JVal
  | obj (fields : List (String × JVal)) : JVal

/-- First-match key lookup in a JSON object's field list. -/
def lookupField : List (String × JVal) → String → Option JVal
  | [], _ => none
  | (k, v) :: rest, key => if k = key then some v else lookupField rest key

/-- Property access j.key as the components perform it: defined on objects,
undefined (none) otherwise. -/
def JVal.get : JVal → String → Option JVal
  | JVal.obj fields, key => lookupField fields key
  | _, _ => none

/-- The three properties the Home page reads from each entry of the stage list
(test-connection.tsx, Home component, stage rendering: stage.stage,
stage.message, stage.timestamp). -/
structure StageRow where
  stage : Option JVal
  message : Option JVal
  timestamp : Option JVal

/-- The Home page's stage-event rendering: it renders the list only when
progress.stages is present (the JSX guard "progress.stages and ..."), and maps
over it reading stage, message and timestamp of each entry. -/
def homeStageRows (progress : JVal) : Option (List StageRow) :=
  match progress.get "stages" with
  | some (JVal.arr es) =>
      some (es.map fun e => ⟨e.get "stage", e.get "message", e.get "timestamp"⟩)
  | _ => none

/-- Every property the client reads off a progress-query response:
AudioRecorder.pollProgress reads status and current_stage; the Home page reads
overall_progress, current_stage and stages. -/
structure ProgressReads where
  status : Option JVal
  current_stage : Option JVal
  overall_progress : Option JVal
  stages : Option JVal

/-- The client's reads of the progress-query response, by key. -/
def clientProgressReads (progress : JVal) : ProgressReads :=
  ⟨progress.get "status", progress.get "current_stage",
   progress.get "overall_progress", progress.get "stages"⟩

/-- The properties TranscriptionResult.tsx reads off the result payload:
result.transcript, result.confidence, result.duration, result.diagnoses,
result.treatments, result.task_id, result.processing_time. -/
structure ResultReads where
  transcript : Option JVal
  confidence : Option JVal
  duration : Option JVal
  diagnoses : Option JVal
  treatments : Option JVal
  task_id : Option JVal
  processing_time : Option JVal

/-- The TranscriptionResult component's reads of the result payload, by key. -/
def transcriptionResultReads (result : JVal) : ResultReads :=
  ⟨result.get "transcript", result.get "confidence", result.get "duration",
   result.get "diagnoses", result.get "treatments", result.get "task_id",
   result.get "processing_time"⟩

/-! ## The typed polling model of AudioRecorder.pollProgress -/

/-- The fields of a progress response that pollProgress consumes (status,
current_stage; overall_progress is passed through to the progress display). -/
structure ProgressResponse where
  status : String
  current_stage : Option String
  overall_progress : Int
deriving Repr, DecidableEq

/-- JavaScript's a-or-default on a possibly-absent string: the default is used
when the value is absent or the empty string (both falsy). -/
def jsOrStr : Option String → String → String
  | some s, d => if s = "" then d else s
  | none, d => d

/-- An HTTP request issued by the AudioRecorder component. -/
inductive Request where
  | submitPost : Request
  | progressGet (taskId : String) : Request
  | resultGet (taskId : String) : Request
deriving Repr, DecidableEq

/-- The task id a request addresses, if any. -/
def Request.taskIdOf : Request → Option String
  | Request.submitPost => none
  | Request.progressGet t => some t
  | Request.resultGet t => some t

/-- The AudioRecorder component state that the polling loop touches. -/
structure PollState where
  isProcessing : Bool
  currentTaskId : Option String
  error : Option String
  intervalActive : Bool
deriving Repr, DecidableEq

/-- One firing of the setInterval callback in pollProgress (AudioRecorder.tsx
lines 93-118): a progress request is issued; on a thrown poll the interval is
cleared and the fixed message is reported; on status completed the interval is
cleared and one result request is issued; on status error the interval is
cleared and current_stage (or the fallback) is surfaced; any other status
leaves the state unchanged. -/
def pollTick (t : String) (s : PollState) :
    Except String ProgressResponse → PollState × List Request
  | Except.error _ =>
      ({ s with intervalActive := false, error := some "Failed to get progress",
                isProcessing := false, currentTaskId := none },
       [Request.progressGet t])
  | Except.ok p =>
      if p.status = "completed" then
        ({ s with intervalActive := false, isProcessing := false,
                  currentTaskId := none },
         [Request.progressGet t, Request.resultGet t])
      else if p.status = "error" then
        ({ s with intervalActive := false,
                  error := some (jsOrStr p.current_stage "Transcription failed"),
                  isProcessing := false, currentTaskId := none },
         [Request.progressGet t])
      else (s, [Request.progressGet t])

/-- The polling loop: the interval fires once per element of the outcome list
as long as it has not been cleared; once cleared, no further callback runs. -/
def runPolling (t : String) (s : PollState) :
    List (Except String ProgressResponse) → PollState × List Request
  | [] => (s, [])
  | r :: rest =>
      if s.intervalActive then
        ((runPolling t (pollTick t s r).1 rest).1,
         (pollTick t s r).2 ++ (runPolling t (pollTick t s r).1 rest).2)
      else (s, [])

/-- The component state at the moment pollProgress is started by processAudio:
isProcessing was set, the error cleared, currentTaskId set to the submitted
task's id, and the interval installed. -/
def initialPollState (t : String) : PollState :=
  { isProcessing := true, currentTaskId := some t, error := none,
    intervalActive := true }

/-- pollProgress as invoked from processAudio on a successful submission. -/
def startPolling (t : String) (polls : List (Except String ProgressResponse)) :
    PollState × List Request :=
  runPolling t (initialPollState t) polls

/-- The component state after the polling loop has terminated: the interval is
cleared, processing has ended, the task id is reset, and the error field holds
whatever message (if any) the terminating branch surfaced. -/
def stoppedPollState (err : Option String) : PollState :=
  { isProcessing := false, currentTaskId := none, error := err,
    intervalActive := false }

/-- Whether a poll outcome makes the loop clear its interval: a thrown poll, or
a response whose status is completed or error. -/
def stopsAt : Except String ProgressResponse → Bool
  | Except.error _ => true
  | Except.ok p => decide (p.status = "completed" ∨ p.status = "error")

/-- Modelled from the spec: the submit endpoint (backend not in the repository
snapshot) returns a payload containing task_id, which processAudio
destructures from response.data. -/
structure SubmitResponse where
  task_id : String
deriving Repr, DecidableEq

/-- AudioRecorder.processAudio (lines 64-90): on a successful submission the
returned task_id is stored and polling starts on it; on a failed submission
the error detail (or the fixed fallback) is surfaced and no polling starts. -/
def processAudio (submit : Except (Option String) SubmitResponse)
    (polls : List (Except String ProgressResponse)) : PollState × List Request :=
  match submit with
  | Except.error detail =>
      ({ isProcessing := false, currentTaskId := none,
         error := some (jsOrStr detail "Failed to start transcription"),
         intervalActive := false },
       [Request.submitPost])
  | Except.ok resp =>
      ((startPolling resp.task_id polls).1,
       Request.submitPost :: (startPolling resp.task_id polls).2)

/-! ## The recording and upload model (startRecording / onstop / upload) -/

/-- The MediaRecorder mime type chosen in startRecording (line 29): the opus
webm codec when supported, the empty string (browser default) otherwise. -/
def negotiatedMimeType (opusSupported : Bool) : String :=
  if opusSupported then "audio/webm;codecs=opus" else ""

/-- The chunk list accumulated by the ondataavailable handler (lines 35-39):
a chunk is pushed only when its size is strictly positive. Chunks are byte
lists. -/
def recordedChunks (events : List (List Nat)) : List (List Nat) :=
  events.filter fun d => 0 < d.length

/-- The single multipart file the client uploads. -/
structure UploadedFile where
  fieldName : String
  fileName : String
  blobType : String
  parts : List (List Nat)
deriving Repr, DecidableEq

/-- The upload built by the onstop handler and processAudio (lines 41-43 and
69-71): a blob of type audio/webm over the recorded chunks, appended to the
form under field "file" with filename "recording.webm". The recorder's
negotiated mime type does not flow into the upload. -/
def buildUpload (_recorderMimeType : String) (events : List (List Nat)) :
    UploadedFile :=
  { fieldName := "file", fileName := "recording.webm", blobType := "audio/webm",
    parts := recordedChunks events }

/-! ## The whole-component state machine of AudioRecorder -/

/-- The React state of the AudioRecorder component. -/
structure CState where
  isRecording : Bool
  isProcessing : Bool
  currentTaskId : Option String
  error : Option String
  pollingActive : Bool
deriving Repr, DecidableEq

/-- The component's initial state. -/
def initialCState : CState :=
  { isRecording := false, isProcessing := false, currentTaskId := none,
    error := none, pollingActive := false }

/-- The fixed microphone-access error message of startRecording (line 53). -/
def micErrorMessage : String :=
  "Failed to access microphone. Please check permissions."

/-- The start-recording button's disabled condition (line 130). -/
def startDisabled (s : CState) : Bool := s.isRecording || s.isProcessing

/-- The stop-recording button's disabled condition (line 144). -/
def stopDisabled (s : CState) : Bool := !s.isRecording || s.isProcessing

/-- The externally triggered events of the component: button clicks (with the
getUserMedia outcome), the onstop handler entering processAudio, the
submission outcome, and poll outcomes. -/
inductive UIEvent where
  | startClick (micOk : Bool) : UIEvent
  | stopClick : UIEvent
  | uploadStart : UIEvent
  | submitOk (taskId : String) : UIEvent
  | submitErr (detail : Option String) : UIEvent
  | pollOk (p : ProgressResponse) : UIEvent
  | pollThrow : UIEvent

/-- The component's transition function. Clicks on a disabled button do
nothing; a submission outcome can only arrive while processAudio's request is
in flight (isProcessing set, polling not yet started); poll outcomes only
arrive while the interval is installed. -/
def cstep (s : CState) : UIEvent → CState
  | UIEvent.startClick ok =>
      if startDisabled s then s
      else if ok then { s with isRecording := true, error := none }
      else { s with error := some micErrorMessage }
  | UIEvent.stopClick =>
      if stopDisabled s then s else { s with isRecording := false }
  | UIEvent.uploadStart =>
      if s.isProcessing || s.pollingActive then s
      else { s with isProcessing := true, error := none }
  | UIEvent.submitOk t =>
      if s.isProcessing && !s.pollingActive then
        { s with currentTaskId := some t, pollingActive := true }
      else s
  | UIEvent.submitErr detail =>
      if s.isProcessing && !s.pollingActive then
        { s with error := some (jsOrStr detail "Failed to start transcription"),
                 isProcessing := false }
      else s
  | UIEvent.pollOk p =>
      if s.pollingActive then
        if p.status = "completed" then
          { s with pollingActive := false, isProcessing := false,
                   currentTaskId := none }
        else if p.status = "error" then
          { s with pollingActive := false,
                   error := some (jsOrStr p.current_stage "Transcription failed"),
                   isProcessing := false, currentTaskId := none }
        else s
      else s
  | UIEvent.pollThrow =>
      if s.pollingActive then
        { s with pollingActive := false,
                 error := some "Failed to get progress",
                 isProcessing := false, currentTaskId := none }
      else s

/-- The reachable component states. -/
inductive CReachable : CState → Prop
  | init : CReachable initialCState
  | step {s : CState} (e : UIEvent) : CReachable s → CReachable (cstep s e)

/-- The single-task-in-flight invariant of the component state. -/
def cInv (s : CState) : Prop :=
  s.currentTaskId.isSome = s.pollingActive ∧
  (s.currentTaskId.isSome = true → s.isProcessing = true)

/-! ## The backend task state machine, modelled from the spec -/

/-- Modelled from the spec: Task.status is one of queued, running, completed,
failed (the backend Task Registry source is not in the repository snapshot). -/
inductive TaskStatus where
  | queued | running | completed | failed
deriving Repr, DecidableEq

/-- Modelled from the spec: Task.current_stage is one of received,
converting_audio, transcribing, extracting_entities, completed, error. -/
inductive StageName where
  | received | converting_audio | transcribing | extracting_entities
  | completedStage | errorStage
deriving Repr, DecidableEq

/-- Modelled from the spec: the fixed stage-to-percentage mapping of
Task Registry append_stage (received=5, converting_audio=20, transcribing=60,
extracting_entities=90, completed=100). -/
def stagePercent : StageName → Nat
  | StageName.received => 5
  | StageName.converting_audio => 20
  | StageName.transcribing => 60
  | StageName.extracting_entities => 90
  | StageName.completedStage => 100
  | StageName.errorStage => 0

/-- Modelled from the spec: the result payload stored on completion. -/
structure ResultPayload where
  transcript : String
  confidence : Int
  duration_seconds : Int
  diagnoses : List String
  treatments : List String
  processing_time_seconds : Int
deriving Repr, DecidableEq

/-- Modelled from the spec: one append-only stage_history entry. -/
structure StageEvent where
  stage_name : StageName
  message : String
  timestamp : Nat
deriving Repr, DecidableEq

/-- Modelled from the spec: a Task record of the Task Registry. -/
structure Task where
  status : TaskStatus
  current_stage : StageName
  overall_progress : Nat
  stage_history : List StageEvent
  result : Option ResultPayload
  error_detail : Option String
deriving Repr, DecidableEq

/-- Modelled from the spec: Task Registry create allocates a Task in queued
state with empty stage history and no result or error. -/
def createdTask : Task :=
  { status := TaskStatus.queued, current_stage := StageName.received,
    overall_progress := 0, stage_history := [], result := none,
    error_detail := none }

/-- Modelled from the spec: the orchestrator's transitions. Submission moves a
queued task to running; append_stage records a non-terminal pipeline stage and
its percentage while running; complete and fail are the terminal transitions,
allowed only while running (InvalidTransition otherwise). -/
inductive TaskStep : Task → Task → Prop
  | submit (t : Task) : t.status = TaskStatus.queued →
      TaskStep t { t with status := TaskStatus.running }
  | append (t : Task) (stg : StageName) (msg : String) (ts : Nat) :
      t.status = TaskStatus.running → stagePercent stg < 100 →
      TaskStep t { t with current_stage := stg,
                          overall_progress := stagePercent stg,
                          stage_history := t.stage_history ++ [⟨stg, msg, ts⟩] }
  | complete (t : Task) (res : ResultPayload) (msg : String) (ts : Nat) :
      t.status = TaskStatus.running →
      TaskStep t { t with status := TaskStatus.completed,
                          current_stage := StageName.completedStage,
                          overall_progress := 100, result := some res,
                          stage_history := t.stage_history ++ [⟨StageName.completedStage, msg, ts⟩] }
  | fail (t : Task) (e : String) (msg : String) (ts : Nat) :
      t.status = TaskStatus.running →
      TaskStep t { t with status := TaskStatus.failed,
                          current_stage := StageName.errorStage,
                          error_detail := some e,
                          stage_history := t.stage_history ++ [⟨StageName.errorStage, msg, ts⟩] }

/-- Modelled from the spec: the task states reachable from creation. -/
inductive ReachableTask : Task → Prop
  | init : ReachableTask createdTask
  | step {t t' : Task} : ReachableTask t → TaskStep t t' → ReachableTask t'

/-- The lifecycle invariant relating status, progress, result and error. -/
def taskInv (t : Task) : Prop :=
  (t.status = TaskStatus.completed ↔ t.overall_progress = 100) ∧
  (t.status = TaskStatus.completed ↔ t.result.isSome = true) ∧
  (t.status = TaskStatus.failed ↔ t.error_detail.isSome = true)

/-! ## Helper lemmas about the polling loop -/

/-- Once the interval has been cleared, no further callback runs and no further
request is issued. -/
lemma runPolling_inactive (t : String) (s : PollState)
    (rs : List (Except String ProgressResponse)) (h : s.intervalActive = false) :
    runPolling t s rs = (s, []) := by
  cases rs with
  | nil => rfl
  | cons r rest => simp [runPolling, h]

/-- A tick whose response has a non-terminal status leaves the state unchanged
and issues exactly the progress request. -/
lemma pollTick_nonstop (t : String) (s : PollState) (p : ProgressResponse)
    (h1 : p.status ≠ "completed") (h2 : p.status ≠ "error") :
    pollTick t s (Except.ok p) = (s, [Request.progressGet t]) := by
  simp [pollTick, h1, h2]

/-- A non-stopping poll outcome is a response whose status is neither completed
nor error. -/
lemma stopsAt_false_elim (r : Except String ProgressResponse)
    (h : stopsAt r = false) :
    ∃ p, r = Except.ok p ∧ p.status ≠ "completed" ∧ p.status ≠ "error" := by
  cases r with
  | error e => simp [stopsAt] at h
  | ok p =>
      simp only [stopsAt, decide_eq_false_iff_not, not_or] at h
      exact ⟨p, rfl, h.1, h.2⟩

/-- A stopping poll outcome clears the interval. -/
lemma pollTick_stop_inactive (t : String) (s : PollState)
    (r : Except String ProgressResponse) (h : stopsAt r = true) :
    (pollTick t s r).1.intervalActive = false := by
  cases r with
  | error e => simp [pollTick]
  | ok p =>
      simp only [stopsAt, decide_eq_true_eq] at h
      rcases h with h | h
      · simp [pollTick, h]
      · have hne : p.status ≠ "completed" := by rw [h]; decide
        simp [pollTick, hne, h]

/-- Ticks over a run of non-stopping responses leave the state unchanged and
issue one progress request each. -/
lemma runPolling_nonstop_prefix (t : String) (s : PollState)
    (hs : s.intervalActive = true)
    (pre rest : List (Except String ProgressResponse))
    (hpre : ∀ r ∈ pre, stopsAt r = false) :
    runPolling t s (pre ++ rest)
      = ((runPolling t s rest).1,
         pre.map (fun _ => Request.progressGet t) ++ (runPolling t s rest).2) := by
  induction pre with
  | nil => simp
  | cons r pre ih =>
      have hr : stopsAt r = false := hpre r (List.mem_cons_self r pre)
      have hpre' : ∀ x ∈ pre, stopsAt x = false :=
        fun x hx => hpre x (List.mem_cons_of_mem _ hx)
      obtain ⟨p, rfl, h1, h2⟩ := stopsAt_false_elim r hr
      have htick := pollTick_nonstop t s p h1 h2
      simp [runPolling, hs, htick, ih hpre']

/-- The polling loop clears its interval exactly when some consumed outcome is
stopping. -/
lemma runPolling_stop_iff (t : String) (s : PollState)
    (hs : s.intervalActive = true)
    (rs : List (Except String ProgressResponse)) :
    ((runPolling t s rs).1.intervalActive = false ↔ rs.any stopsAt = true) := by
  induction rs with
  | nil => simp [runPolling, hs]
  | cons r rest ih =>
      by_cases hr : stopsAt r = true
      · have h1 := pollTick_stop_inactive t s r hr
        simp [runPolling, hs, runPolling_inactive t _ rest h1, h1, hr]
      · have hr' : stopsAt r = false := by simpa using hr
        obtain ⟨p, rfl, hc, he⟩ := stopsAt_false_elim r hr'
        have htick := pollTick_nonstop t s p hc he
        simp [runPolling, hs, htick, hr', ih]

/-- Every request issued by a poll tick addresses the polled task id. -/
lemma pollTick_requests_taskId (t : String) (s : PollState)
    (r : Except String ProgressResponse) :
    ∀ q ∈ (pollTick t s r).2, q.taskIdOf = some t := by
  intro q hq
  cases r with
  | error e =>
      simp [pollTick] at hq
      subst hq; rfl
  | ok p =>
      by_cases hc : p.status = "completed"
      · simp [pollTick, hc] at hq
        rcases hq with hq | hq <;> subst hq <;> rfl
      · by_cases he : p.status = "error"
        · simp [pollTick, hc, he] at hq
          subst hq; rfl
        · simp [pollTick, hc, he] at hq
          subst hq; rfl

/-- Every request issued by the polling loop addresses the polled task id. -/
lemma runPolling_requests_taskId (t : String) (s : PollState)
    (rs : List (Except String ProgressResponse)) :
    ∀ q ∈ (runPolling t s rs).2, q.taskIdOf = some t := by
  induction rs generalizing s with
  | nil => intro q hq; simp [runPolling] at hq
  | cons r rest ih =>
      intro q hq
      by_cases hs : s.intervalActive = true
      · simp only [runPolling, hs, if_true, List.mem_append] at hq
        rcases hq with hq | hq
        · exact pollTick_requests_taskId t s r q hq
        · exact ih _ q hq
      · have hs' : s.intervalActive = false := by simpa using hs
        simp [runPolling, hs'] at hq

/-! ## Invariant lemmas for the component state machine -/

/-- The initial component state satisfies the single-task invariant. -/
lemma cInv_initial : cInv initialCState := by
  simp [cInv, initialCState]

/-- Every component transition preserves the single-task invariant. -/
lemma cInv_cstep (s : CState) (e : UIEvent) (h : cInv s) : cInv (cstep s e) := by
  obtain ⟨h1, h2⟩ := h
  cases e with
  | startClick ok =>
      simp only [cstep]
      split_ifs <;> exact ⟨h1, h2⟩
  | stopClick =>
      simp only [cstep]
      split_ifs <;> exact ⟨h1, h2⟩
  | uploadStart =>
      simp only [cstep]
      split_ifs with hcond
      · exact ⟨h1, h2⟩
      · exact ⟨h1, fun _ => rfl⟩
  | submitOk tid =>
      simp only [cstep]
      split_ifs with hcond
      · simp at hcond
        exact ⟨rfl, fun _ => hcond.1⟩
      · exact ⟨h1, h2⟩
  | submitErr d =>
      simp only [cstep]
      split_ifs with hcond
      · simp at hcond
        have hnone : s.currentTaskId.isSome = false := by rw [h1, hcond.2]
        refine ⟨h1, fun hsome => ?_⟩
        rw [hnone] at hsome
        cases hsome
      · exact ⟨h1, h2⟩
  | pollOk p =>
      simp only [cstep]
      split_ifs with hact hc he
      · exact ⟨rfl, fun hsome => by simp at hsome⟩
      · exact ⟨rfl, fun hsome => by simp at hsome⟩
      · exact ⟨h1, h2⟩
      · exact ⟨h1, h2⟩
  | pollThrow =>
      simp only [cstep]
      split_ifs with hact
      · exact ⟨rfl, fun hsome => by simp at hsome⟩
      · exact ⟨h1, h2⟩

/-- Every reachable component state satisfies the single-task invariant. -/
lemma creachable_cInv {s : CState} (h : CReachable s) : cInv s := by
  induction h with
  | init => exact cInv_initial
  | step e hr ih => exact cInv_cstep _ e ih

/-! ## Invariant lemmas for the spec-modelled task machine -/

/-- The freshly created task satisfies the lifecycle invariant. -/
lemma taskInv_createdTask : taskInv createdTask := by
  simp [taskInv, createdTask]

/-- Every orchestrator transition preserves the lifecycle invariant. -/
lemma taskInv_step {u v : Task} (h : taskInv u) (hs : TaskStep u v) :
    taskInv v := by
  obtain ⟨h1, h2, h3⟩ := h
  cases hs with
  | submit hq =>
      refine ⟨?_, ?_, ?_⟩ <;> simp_all [taskInv]
  | append stg msg ts hr hlt =>
      refine ⟨?_, ?_, ?_⟩ <;> simp_all [taskInv]
      omega
  | complete res msg ts hr =>
      refine ⟨?_, ?_, ?_⟩ <;> simp_all [taskInv]
  | fail e msg ts hr =>
      refine ⟨?_, ?_, ?_⟩ <;> simp_all [taskInv]

/-- Every reachable task state satisfies the lifecycle invariant. -/
lemma reachable_taskInv {t : Task} (h : ReachableTask t) : taskInv t := by
  induction h with
  | init => exact taskInv_createdTask
  | step hr hs ih => exact taskInv_step ih hs

/-! ## Claim theorems -/

/-- Claim C1, counterexample: the claim says the polling loop terminates when
it observes status failed; on a response whose status is the string "failed"
the client does not clear its interval (and keeps issuing progress requests),
so a task reaching the terminal status failed leaves the client polling
indefinitely. -/
theorem claim_C1_counterexample :
    ((startPolling "task-1"
        [Except.ok ⟨"failed", some "transcribing", 60⟩]).1.intervalActive = true)
    ∧ (startPolling "task-1"
        [Except.ok ⟨"failed", some "transcribing", 60⟩,
         Except.ok ⟨"failed", some "transcribing", 60⟩]).2
      = [Request.progressGet "task-1", Request.progressGet "task-1"] := by
  constructor <;> decide

/-- Claim C1, amended: the client's polling loop clears its interval when and
only when a consumed poll outcome is stopping, i.e. it observes status
completed or status error, or the poll itself throws; in particular a status
failed does not stop the polling. -/
theorem claim_C1_polling_stops_iff (t : String)
    (polls : List (Except String ProgressResponse)) :
    ((startPolling t polls).1.intervalActive = false ↔ polls.any stopsAt = true) :=
  runPolling_stop_iff t (initialPollState t) rfl polls

/-- Claim C2, counterexample: on observing status "failed" the client surfaces
nothing (the error stays unset) and leaves the interval active, so it will
re-query the same task id; it does not surface error_detail (which it never
reads) nor stop. -/
theorem claim_C2_counterexample :
    ((startPolling "task-1"
        [Except.ok ⟨"failed", some "transcribing", 60⟩]).1.error = none)
    ∧ ((startPolling "task-1"
        [Except.ok ⟨"failed", some "transcribing", 60⟩]).1.intervalActive = true) := by
  constructor <;> decide

/-- Claim C2, amended: when the client observes a response whose status is
"error", it clears the interval, surfaces the response's current_stage (or the
fixed fallback "Transcription failed" when it is absent or empty) as the error
message, resets the task id, and issues no further request for that task. -/
theorem claim_C2_error_status_behavior (t : String) (p : ProgressResponse)
    (rest : List (Except String ProgressResponse)) (h : p.status = "error") :
    (startPolling t (Except.ok p :: rest)).1.error
        = some (jsOrStr p.current_stage "Transcription failed")
    ∧ (startPolling t (Except.ok p :: rest)).1.intervalActive = false
    ∧ (startPolling t (Except.ok p :: rest)).1.currentTaskId = none
    ∧ (startPolling t (Except.ok p :: rest)).1.isProcessing = false
    ∧ (startPolling t (Except.ok p :: rest)).2 = [Request.progressGet t] := by
  have hact : (initialPollState t).intervalActive = true := rfl
  have hc : p.status ≠ "completed" := by rw [h]; decide
  have htick : pollTick t (initialPollState t) (Except.ok p)
      = (stoppedPollState (some (jsOrStr p.current_stage "Transcription failed")),
         [Request.progressGet t]) := by
    simp [pollTick, hc, h, initialPollState, stoppedPollState]
  have hrest : runPolling t
      (stoppedPollState (some (jsOrStr p.current_stage "Transcription failed"))) rest
      = (stoppedPollState (some (jsOrStr p.current_stage "Transcription failed")), []) :=
    runPolling_inactive t _ rest rfl
  have hrun : startPolling t (Except.ok p :: rest)
      = (stoppedPollState (some (jsOrStr p.current_stage "Transcription failed")),
         [Request.progressGet t]) := by
    rw [startPolling]
    simp [runPolling, hact, htick, hrest]
  rw [hrun]
  exact ⟨rfl, rfl, rfl, rfl, rfl⟩

/-- Witness for claim C2's amended theorem at a concrete error response. -/
theorem claim_C2_witness :
    (startPolling "task-9"
        [Except.ok ⟨"error", some "converting_audio", 20⟩]).1.error
        = some (jsOrStr (some "converting_audio") "Transcription failed")
    ∧ (startPolling "task-9"
        [Except.ok ⟨"error", some "converting_audio", 20⟩]).1.intervalActive = false
    ∧ (startPolling "task-9"
        [Except.ok ⟨"error", some "converting_audio", 20⟩]).1.currentTaskId = none
    ∧ (startPolling "task-9"
        [Except.ok ⟨"error", some "converting_audio", 20⟩]).1.isProcessing = false
    ∧ (startPolling "task-9"
        [Except.ok ⟨"error", some "converting_audio", 20⟩]).2
        = [Request.progressGet "task-9"] :=
  claim_C2_error_status_behavior "task-9" ⟨"error", some "converting_audio", 20⟩ [] rfl

/-- Claim C3, counterexample: a progress payload that carries the stage events
under the field name stage_history is not rendered by the client: the Home
page's stage rendering looks up the field stages and finds nothing. -/
theorem claim_C3_counterexample :
    homeStageRows (JVal.obj
      [("status", JVal.str "running"),
       ("current_stage", JVal.str "transcribing"),
       ("overall_progress", JVal.num 60),
       ("stage_history", JVal.arr [JVal.obj
          [("stage", JVal.str "received"),
           ("message", JVal.str "Task received"),
           ("timestamp", JVal.str "t0")]])]) = none := by
  rfl

/-- Claim C3, amended: the progress payload the client consumes has the shape
with the ordered stage events carried in a field named stages (not
stage_history); the client reads status, current_stage, overall_progress and
stages, and renders each stage entry's stage, message and timestamp fields. -/
theorem claim_C3_client_reads_stages (st cs op : JVal) (es : List JVal) :
    clientProgressReads (JVal.obj
        [("status", st), ("current_stage", cs), ("overall_progress", op),
         ("stages", JVal.arr es)])
      = ⟨some st, some cs, some op, some (JVal.arr es)⟩
    ∧ homeStageRows (JVal.obj
        [("status", st), ("current_stage", cs), ("overall_progress", op),
         ("stages", JVal.arr es)])
      = some (es.map fun e => ⟨e.get "stage", e.get "message", e.get "timestamp"⟩) := by
  exact ⟨rfl, rfl⟩

/-- Claim C4, counterexample: a result payload carrying the audio duration in
duration_seconds and the pipeline timing in processing_time_seconds (the
claimed field names) is not what the client reads: its duration and
processing_time reads both come back empty (the component renders both as
not available). -/
theorem claim_C4_counterexample :
    ((transcriptionResultReads (JVal.obj
        [("transcript", JVal.str "otitis externa"), ("confidence", JVal.num 1),
         ("duration_seconds", JVal.num 3), ("diagnoses", JVal.arr []),
         ("treatments", JVal.arr []), ("processing_time_seconds", JVal.num 2),
         ("task_id", JVal.str "task-1")])).duration = none)
    ∧ ((transcriptionResultReads (JVal.obj
        [("transcript", JVal.str "otitis externa"), ("confidence", JVal.num 1),
         ("duration_seconds", JVal.num 3), ("diagnoses", JVal.arr []),
         ("treatments", JVal.arr []), ("processing_time_seconds", JVal.num 2),
         ("task_id", JVal.str "task-1")])).processing_time = none) := by
  exact ⟨rfl, rfl⟩

/-- Claim C4, amended: the result payload the client displays is read through
the field names transcript, confidence, duration, diagnoses, treatments,
processing_time and task_id: the audio duration is carried in a field named
duration and the pipeline timing in a field named processing_time. -/
theorem claim_C4_client_result_reads (a b c d e f g : JVal) :
    transcriptionResultReads (JVal.obj
        [("transcript", a), ("confidence", b), ("duration", c),
         ("diagnoses", d), ("treatments", e), ("processing_time", f),
         ("task_id", g)])
      = ⟨some a, some b, some c, some d, some e, some g, some f⟩ := by
  rfl

/-- Claim C5: when a polling run observes status completed (after any number
of non-stopping polls), it issues exactly one result query for that task id,
as the last request of the run: the interval is cleared, so no further
progress poll or second result query is ever issued. -/
theorem claim_C5_completed_single_result_query (t : String)
    (pre rest : List (Except String ProgressResponse)) (p : ProgressResponse)
    (hpre : ∀ r ∈ pre, stopsAt r = false) (hp : p.status = "completed") :
    (startPolling t (pre ++ Except.ok p :: rest)).2
        = pre.map (fun _ => Request.progressGet t)
            ++ [Request.progressGet t, Request.resultGet t]
    ∧ ((startPolling t (pre ++ Except.ok p :: rest)).2).count (Request.resultGet t) = 1
    ∧ (startPolling t (pre ++ Except.ok p :: rest)).1.intervalActive = false := by
  have hact : (initialPollState t).intervalActive = true := rfl
  have htick : pollTick t (initialPollState t) (Except.ok p)
      = (stoppedPollState none,
         [Request.progressGet t, Request.resultGet t]) := by
    simp [pollTick, hp, initialPollState, stoppedPollState]
  have hrest : runPolling t (stoppedPollState none) rest
      = (stoppedPollState none, []) :=
    runPolling_inactive t _ rest rfl
  have hrun : runPolling t (initialPollState t) (Except.ok p :: rest)
      = (stoppedPollState none,
         [Request.progressGet t, Request.resultGet t]) := by
    simp [runPolling, hact, htick, hrest]
  have hall : startPolling t (pre ++ Except.ok p :: rest)
      = (stoppedPollState none,
         pre.map (fun _ => Request.progressGet t)
           ++ [Request.progressGet t, Request.resultGet t]) := by
    rw [startPolling,
        runPolling_nonstop_prefix t (initialPollState t) hact pre _ hpre, hrun]
  have hnotin : Request.resultGet t ∉ pre.map (fun _ => Request.progressGet t) := by
    simp
  rw [hall]
  refine ⟨rfl, ?_, rfl⟩
  simp [List.count_append, List.count_eq_zero.mpr hnotin, List.count_cons,
        List.count_replicate]

/-- Witness for claim C5's theorem on a run that completes at the first
poll. -/
theorem claim_C5_witness :
    (startPolling "task-9" [Except.ok ⟨"completed", none, 100⟩]).2
        = [Request.progressGet "task-9", Request.resultGet "task-9"]
    ∧ ((startPolling "task-9" [Except.ok ⟨"completed", none, 100⟩]).2).count
        (Request.resultGet "task-9") = 1
    ∧ (startPolling "task-9" [Except.ok ⟨"completed", none, 100⟩]).1.intervalActive
        = false :=
  claim_C5_completed_single_result_query "task-9" [] [] ⟨"completed", none, 100⟩
    (by simp) rfl

/-- Claim C6: a successful submission returns a payload whose task_id the
client stores, and every request it issues afterwards in that run (every
progress poll and the result query) addresses exactly that task id. -/
theorem claim_C6_task_id_used_for_all_queries (t : String)
    (polls : List (Except String ProgressResponse)) (q : Request)
    (hq : q ∈ (processAudio (Except.ok ⟨t⟩) polls).2) :
    q = Request.submitPost ∨ q.taskIdOf = some t := by
  simp only [processAudio, startPolling, List.mem_cons] at hq
  rcases hq with rfl | hq
  · exact Or.inl rfl
  · exact Or.inr (runPolling_requests_taskId t (initialPollState t) polls q hq)

/-- Witness for claim C6's theorem: the result query of a completed run
addresses the submitted task id. -/
theorem claim_C6_witness :
    Request.resultGet "task-9" = Request.submitPost
      ∨ (Request.resultGet "task-9").taskIdOf = some "task-9" :=
  claim_C6_task_id_used_for_all_queries "task-9"
    [Except.ok ⟨"completed", none, 100⟩] (Request.resultGet "task-9") (by decide)

/-- Claim C7, counterexample: a freshly created task is reachable, has
error_detail absent, and yet its status is queued, not completed — so the
claimed chain "status completed iff error_detail absent" fails at an
observable point of the lifecycle. -/
theorem claim_C7_counterexample :
    ReachableTask createdTask
    ∧ ¬ (createdTask.status = TaskStatus.completed ↔ createdTask.error_detail = none) := by
  refine ⟨ReachableTask.init, ?_⟩
  simp [createdTask]

/-- Claim C7, amended: at every observable point of a task's lifecycle, status
is completed iff overall_progress is 100 iff result is present; and
error_detail is present iff status is failed (so among terminal tasks,
completed iff error_detail is absent; a queued or running task has
error_detail absent without being completed). -/
theorem claim_C7_lifecycle_invariant (t : Task) (h : ReachableTask t) :
    (t.status = TaskStatus.completed ↔ t.overall_progress = 100)
    ∧ (t.status = TaskStatus.completed ↔ t.result.isSome = true)
    ∧ (t.status = TaskStatus.failed ↔ t.error_detail.isSome = true) :=
  reachable_taskInv h

/-- Witness for claim C7's amended theorem at the created task. -/
theorem claim_C7_witness :
    (createdTask.status = TaskStatus.completed ↔ createdTask.overall_progress = 100)
    ∧ (createdTask.status = TaskStatus.completed ↔ createdTask.result.isSome = true)
    ∧ (createdTask.status = TaskStatus.failed ↔ createdTask.error_detail.isSome = true) :=
  claim_C7_lifecycle_invariant createdTask ReachableTask.init

/-- Claim C8: if a progress poll throws (after any number of non-stopping
polls), the client clears the interval, reports the fixed message "Failed to
get progress", resets the task id and the processing flag, and issues no
further progress or result request for that task id — regardless of any
outcomes that might have followed. -/
theorem claim_C8_poll_throw_stops (t e : String)
    (pre rest : List (Except String ProgressResponse))
    (hpre : ∀ r ∈ pre, stopsAt r = false) :
    (startPolling t (pre ++ Except.error e :: rest)).1.error
        = some "Failed to get progress"
    ∧ (startPolling t (pre ++ Except.error e :: rest)).1.intervalActive = false
    ∧ (startPolling t (pre ++ Except.error e :: rest)).1.isProcessing = false
    ∧ (startPolling t (pre ++ Except.error e :: rest)).1.currentTaskId = none
    ∧ (startPolling t (pre ++ Except.error e :: rest)).2
        = pre.map (fun _ => Request.progressGet t) ++ [Request.progressGet t] := by
  have hact : (initialPollState t).intervalActive = true := rfl
  have htick : pollTick t (initialPollState t) (Except.error e)
      = (stoppedPollState (some "Failed to get progress"),
         [Request.progressGet t]) := rfl
  have hrest : runPolling t (stoppedPollState (some "Failed to get progress")) rest
      = (stoppedPollState (some "Failed to get progress"), []) :=
    runPolling_inactive t _ rest rfl
  have hrun : runPolling t (initialPollState t) (Except.error e :: rest)
      = (stoppedPollState (some "Failed to get progress"),
         [Request.progressGet t]) := by
    simp [runPolling, hact, htick, hrest]
  have hall : startPolling t (pre ++ Except.error e :: rest)
      = (stoppedPollState (some "Failed to get progress"),
         pre.map (fun _ => Request.progressGet t) ++ [Request.progressGet t]) := by
    rw [startPolling,
        runPolling_nonstop_prefix t (initialPollState t) hact pre _ hpre, hrun]
  rw [hall]
  exact ⟨rfl, rfl, rfl, rfl, rfl⟩

/-- Witness for claim C8's theorem: a poll throw at the first tick stops the
run even though a completed response would have followed. -/
theorem claim_C8_witness :
    (startPolling "task-9"
        [Except.error "network down", Except.ok ⟨"completed", none, 100⟩]).1.error
        = some "Failed to get progress"
    ∧ (startPolling "task-9"
        [Except.error "network down", Except.ok ⟨"completed", none, 100⟩]).1.intervalActive
        = false
    ∧ (startPolling "task-9"
        [Except.error "network down", Except.ok ⟨"completed", none, 100⟩]).1.isProcessing
        = false
    ∧ (startPolling "task-9"
        [Except.error "network down", Except.ok ⟨"completed", none, 100⟩]).1.currentTaskId
        = none
    ∧ (startPolling "task-9"
        [Except.error "network down", Except.ok ⟨"completed", none, 100⟩]).2
        = [Request.progressGet "task-9"] :=
  claim_C8_poll_throw_stops "task-9" "network down" []
    [Except.ok ⟨"completed", none, 100⟩] (by simp)

/-- Claim C9: whatever mime type the MediaRecorder negotiated, the upload is a
single multipart file under field "file", named "recording.webm", with blob
type audio/webm, and its blob is assembled exactly from the recorded data
chunks of strictly positive size. -/
theorem claim_C9_upload_shape (b b' : Bool) (events : List (List Nat)) :
    buildUpload (negotiatedMimeType b) events
        = buildUpload (negotiatedMimeType b') events
    ∧ (buildUpload (negotiatedMimeType b) events).fieldName = "file"
    ∧ (buildUpload (negotiatedMimeType b) events).fileName = "recording.webm"
    ∧ (buildUpload (negotiatedMimeType b) events).blobType = "audio/webm"
    ∧ (buildUpload (negotiatedMimeType b) events).parts
        = events.filter (fun d => 0 < d.length) :=
  ⟨rfl, rfl, rfl, rfl, rfl⟩

/-- Claim C10: in every reachable component state, a non-null current task id
implies the component is processing with its polling interval installed, and
whenever the component is processing both recording controls are disabled —
so at most one task is in flight at any time. -/
theorem claim_C10_single_task_in_flight (s : CState) (h : CReachable s) :
    (s.currentTaskId.isSome = true →
        s.isProcessing = true ∧ s.pollingActive = true
        ∧ startDisabled s = true ∧ stopDisabled s = true)
    ∧ (s.isProcessing = true → startDisabled s = true ∧ stopDisabled s = true) := by
  obtain ⟨h1, h2⟩ := creachable_cInv h
  constructor
  · intro hsome
    have hproc := h2 hsome
    refine ⟨hproc, ?_, ?_, ?_⟩
    · rw [← h1]; exact hsome
    · simp [startDisabled, hproc]
    · simp [stopDisabled, hproc]
  · intro hproc
    exact ⟨by simp [startDisabled, hproc], by simp [stopDisabled, hproc]⟩

/-- Witness for claim C10's theorem at the initial component state. -/
theorem claim_C10_witness :
    (initialCState.currentTaskId.isSome = true →
        initialCState.isProcessing = true ∧ initialCState.pollingActive = true
        ∧ startDisabled initialCState = true ∧ stopDisabled initialCState = true)
    ∧ (initialCState.isProcessing = true →
        startDisabled initialCState = true ∧ stopDisabled initialCState = true) :=
  claim_C10_single_task_in_flight initialCState CReachable.init

end VetScribe
